import Mathlib

/-!
Verification of the SSHKey AWS task (`upup/pkg/fi/cloudup/awstasks/sshkey.go`)
and the logrotate model builder against the repository's specification.

Go code is shallowly embedded: pointer types `*T` become `Option T`, a Go
`(value, error)` return with possible nil-pointer dereference becomes
`GoResult`, maps become association lists, and the cloud backend (the EC2
client) is passed in as explicit data (the `DescribeKeyPairs` response) or as
a function argument (the `ImportKeyPair` call).
-/

set_option maxRecDepth 8000

namespace KopsVerify

/-- Outcome of a Go function: a normal return, a returned non-nil `error`,
or a runtime panic (nil-pointer dereference). -/
inductive GoResult (α : Type) where
  | ok : α → GoResult α
  | error : String → GoResult α
  | panic : GoResult α
deriving DecidableEq, Repr

/-- Sequencing of Go steps: errors and panics short-circuit. -/
def GoResult.bind {α β : Type} : GoResult α → (α → GoResult β) → GoResult β
  | GoResult.ok a, f => f a
  | GoResult.error m, _ => GoResult.error m
  | GoResult.panic, _ => GoResult.panic

/-- Dereference of a Go pointer (`*p`): panics when the pointer is nil. -/
def deref {α : Type} : Option α → GoResult α
  | some a => GoResult.ok a
  | none => GoResult.panic

/-- `fi.ValueOf` on a `*string`: the pointed-to value, or `""` for nil. -/
def valueOf : Option String → String
  | some s => s
  | none => ""

/-- An `fi.Resource`: reading it (`fi.ResourceAsString` / `fi.ResourceAsBytes`)
yields either its contents or an error. -/
abbrev Resource := Except String String

deriving instance DecidableEq for Except

/-- `fi.ResourceAsString` applied to a non-nil resource. -/
def ResourceAsString (r : Resource) : Except String String := r

/-- Rendering of Go's `fmt` verb `%q` on a string argument. -/
def goQuote (s : String) : String := "\"" ++ s ++ "\""

/-- `strings.TrimRight(s, "=")`: drop every trailing `=` character. -/
def trimRightEq (s : String) : String :=
  String.mk ((s.data.reverse.dropWhile (fun c => c = '=')).reverse)

/-- `strings.Replace(s, ":", "", -1)`: remove every colon. -/
def removeColons (s : String) : String :=
  String.mk (s.data.filter (fun c => c ≠ ':'))

/-- The constant `ec2.KeyTypeEd25519`. -/
def ec2KeyTypeEd25519 : String := "ed25519"

/-- The `SSHKey` task struct (sshkey.go lines 35–46). `fi.Lifecycle` is a
string-valued enumeration, kept as `String`; the `Tags` map is an association
list; `PublicKey fi.Resource` is a nilable interface, hence `Option Resource`. -/
structure SSHKey where
  ID : Option String := none
  Name : Option String := none
  Lifecycle : String := ""
  Shared : Bool := false
  PublicKey : Option Resource := none
  KeyFingerprint : Option String := none
  Tags : List (String × String) := []
deriving DecidableEq, Repr

/-- `CompareWithID` (sshkey.go lines 51–53): the identity used for comparison
is the task's Name. -/
def SSHKey.CompareWithID (e : SSHKey) : Option String := e.Name

/-- `IsExistingKey` (sshkey.go lines 220–222): true when the task was
initialized without a public key. -/
def SSHKey.IsExistingKey (e : SSHKey) : Bool := e.PublicKey.isNone

/-- `NoSSHKey` (sshkey.go lines 235–237). -/
def SSHKey.NoSSHKey (e : SSHKey) : Bool :=
  e.ID.isNone && e.Name.isNone && e.PublicKey.isNone && e.KeyFingerprint.isNone

/-- Modelled from the spec: `fi.CannotChangeField` (package `fi`, not under
`src/`) builds the hard "cannot change field" error for an immutable field. -/
def CannotChangeField (field : String) : String := "cannot change field " ++ field

/-- `CheckChanges` (sshkey.go lines 145–152): once the resource exists
(`a` non-nil), a changed Name is a hard error. -/
def SSHKey.CheckChanges (a : Option SSHKey) (_e changes : SSHKey) : GoResult Unit :=
  match a with
  | some _ =>
    match changes.Name with
    | some _ => GoResult.error (CannotChangeField "Name")
    | none => GoResult.ok ()
  | none => GoResult.ok ()

/-- An AWS SDK error: `code` is the `awserr.Error` code when the error is an
AWS error (nil for other errors). -/
structure AwsError where
  code : Option String := none
  message : String := ""
deriving DecidableEq, Repr

/-- One `ec2.KeyPairInfo` from a `DescribeKeyPairs` response; EC2 tag lists
are kept directly as the association list `mapEC2TagsToMap` produces. -/
structure KeyPairInfo where
  KeyPairId : Option String := none
  KeyName : Option String := none
  KeyFingerprint : Option String := none
  KeyType : Option String := none
  Tags : List (String × String) := []
deriving DecidableEq, Repr

/-- The absence branch of `find` (sshkey.go lines 76–81), reached when the
response is nil or holds no key pairs: an existing-key task with a non-empty
Name fails hard, every other task gets nil actual with no error. -/
def SSHKey.findAbsent (e : SSHKey) : GoResult (Option SSHKey × SSHKey) :=
  if e.IsExistingKey then
    (deref e.Name).bind (fun n =>
      if n ≠ "" then
        GoResult.error ("unable to find specified SSH key " ++ goQuote n)
      else GoResult.ok (none, e))
  else GoResult.ok (none, e)

/-- The actual task `find` builds from the single matching key pair
(sshkey.go lines 88–114): start from the backend's fields, rewrite an Ed25519
fingerprint to the `SHA256:`-prefixed unpadded form, copy the expected
PublicKey when the fingerprints agree, copy the expected Lifecycle, and for a
shared key report the expected Tags. -/
def SSHKey.findActual (e : SSHKey) (k : KeyPairInfo) : SSHKey :=
  let actual0 : SSHKey :=
    { ID := k.KeyPairId, Name := k.KeyName, KeyFingerprint := k.KeyFingerprint,
      Tags := k.Tags, Shared := e.Shared }
  let actual1 :=
    if valueOf k.KeyType = ec2KeyTypeEd25519 then
      { actual0 with KeyFingerprint := some ("SHA256:" ++ trimRightEq (valueOf k.KeyFingerprint)) }
    else actual0
  let actual2 :=
    if valueOf actual1.KeyFingerprint = valueOf e.KeyFingerprint then
      { actual1 with PublicKey := e.PublicKey }
    else actual1
  let actual3 := { actual2 with Lifecycle := e.Lifecycle }
  if actual3.Shared then { actual3 with Tags := e.Tags } else actual3

/-- The fingerprint `find` ends up comparing against the expected one: the
stored fingerprint, rewritten to the `SHA256:`-prefixed unpadded form for an
Ed25519 key (sshkey.go lines 96–104). -/
def normalizedFingerprint (k : KeyPairInfo) : String :=
  if valueOf k.KeyType = ec2KeyTypeEd25519 then
    "SHA256:" ++ trimRightEq (valueOf k.KeyFingerprint)
  else valueOf k.KeyFingerprint

/-- The single-key-pair tail of `find` (sshkey.go lines 87–120): build the
actual, then store the discovered ID — and, for an existing key with a
non-empty Name (dereferencing `*e.Name`), the discovered fingerprint — back
into the expected task. Returns `(actual, updated e)`. -/
def SSHKey.findOne (e : SSHKey) (k : KeyPairInfo) : GoResult (Option SSHKey × SSHKey) :=
  let actual := e.findActual k
  let e1 := { e with ID := actual.ID }
  if e1.IsExistingKey then
    (deref e1.Name).bind (fun n =>
      if n ≠ "" then
        GoResult.ok (some actual, { e1 with KeyFingerprint := actual.KeyFingerprint })
      else GoResult.ok (some actual, e1))
  else GoResult.ok (some actual, e1)

/-- `find` (sshkey.go lines 61–121). The backend's `DescribeKeyPairs` reply is
the pair `(response, err)`: `response` is nil or the listed key pairs, `err`
the SDK error. An `InvalidKeyPair.NotFound` code is cleared to nil first; any
remaining error is returned; then the response is dispatched on its length
(`0` → absence branch, `1` → the match, otherwise the ambiguity error). -/
def SSHKey.find (e : SSHKey) (response : Option (List KeyPairInfo))
    (err : Option AwsError) : GoResult (Option SSHKey × SSHKey) :=
  let err1 : Option AwsError :=
    match err with
    | some a => if a.code = some "InvalidKeyPair.NotFound" then none else some a
    | none => none
  match err1 with
  | some a => GoResult.error ("error listing SSHKeys: " ++ a.message)
  | none =>
    match response with
    | none => e.findAbsent
    | some [] => e.findAbsent
    | some [k] => e.findOne k
    | some _ =>
      (deref e.Name).bind (fun n =>
        GoResult.error ("Found multiple SSHKeys with Name " ++ goQuote n))

/-- `Normalize` (sshkey.go lines 123–139), parametrized by
`pki.ComputeAWSKeyFingerprint` (package `pki`, not under `src/`): when no
fingerprint was given and a public key is present, read the key, compute the
fingerprint and store it; otherwise leave the task untouched. -/
def SSHKey.Normalize (computeAWSKeyFingerprint : String → Except String String)
    (e : SSHKey) : GoResult SSHKey :=
  match e.KeyFingerprint, e.PublicKey with
  | none, some r =>
    match ResourceAsString r with
    | Except.error m => GoResult.error ("error reading SSH public key: " ++ m)
    | Except.ok publicKey =>
      match computeAWSKeyFingerprint publicKey with
      | Except.error m =>
        GoResult.error ("error computing key fingerprint for SSH key: " ++ m)
      | Except.ok keyFingerprint =>
        GoResult.ok { e with KeyFingerprint := some keyFingerprint }
  | _, _ => GoResult.ok e

/-- An `ec2.ImportKeyPairInput` request (sshkey.go lines 157–168): key name,
tag specifications, and public key material. -/
structure ImportKeyPairInput where
  KeyName : Option String := none
  Tags : List (String × String) := []
  PublicKeyMaterial : Option String := none
deriving DecidableEq, Repr

/-- The fields of an `ec2.ImportKeyPairOutput` the task reads. -/
structure ImportKeyPairOutput where
  KeyFingerprint : Option String := none
  KeyPairId : Option String := none
deriving DecidableEq, Repr

/-- A live EC2 mutation issued by the AWS render target. -/
inductive AwsCall where
  | importKeyPair : ImportKeyPairInput → AwsCall
  | addAWSTags : String → List (String × String) → AwsCall
deriving DecidableEq, Repr

/-- The `ImportKeyPair` call and its aftermath (sshkey.go lines 170–178):
record the call, turn a backend error into the wrapped error, and on success
store the backend-assigned fingerprint and ID into the expected task. -/
def SSHKey.importAndStore (e : SSHKey) (request : ImportKeyPairInput)
    (ec2ImportKeyPair : ImportKeyPairInput → Except AwsError ImportKeyPairOutput) :
    List AwsCall × GoResult SSHKey :=
  match ec2ImportKeyPair request with
  | Except.error aerr =>
    ([AwsCall.importKeyPair request],
     GoResult.error ("error creating SSHKey: " ++ aerr.message))
  | Except.ok response =>
    ([AwsCall.importKeyPair request],
     GoResult.ok { e with KeyFingerprint := response.KeyFingerprint,
                          ID := response.KeyPairId })

/-- `createKeypair` (sshkey.go lines 154–179), parametrized by the EC2
`ImportKeyPair` backend. The opening log line dereferences `*e.Name`, so a nil
Name panics; a public key that cannot be read is an error before any call;
otherwise the import request carries the Name, the tags, and (when present)
the public key material. Returns the calls made and the Go result. -/
def SSHKey.createKeypair (e : SSHKey)
    (ec2ImportKeyPair : ImportKeyPairInput → Except AwsError ImportKeyPairOutput) :
    List AwsCall × GoResult SSHKey :=
  match e.Name with
  | none => ([], GoResult.panic)
  | some _ =>
    let request0 : ImportKeyPairInput :=
      { KeyName := e.Name, Tags := e.Tags, PublicKeyMaterial := none }
    match e.PublicKey with
    | none => e.importAndStore request0 ec2ImportKeyPair
    | some (Except.error m) =>
      ([], GoResult.error ("error rendering SSHKey PublicKey: " ++ m))
    | some (Except.ok d) =>
      e.importAndStore { request0 with PublicKeyMaterial := some d } ec2ImportKeyPair

/-- `RenderAWS` (sshkey.go lines 181–190), parametrized by the EC2 import
backend and by `AddAWSTags`'s outcome (`none` for success, `some m` for an
error `m`). A nil actual is a create via `createKeypair`; otherwise a
non-shared key re-asserts its tags on `*e.ID` and a shared key does nothing. -/
def SSHKey.RenderAWS (a : Option SSHKey) (e _changes : SSHKey)
    (ec2ImportKeyPair : ImportKeyPairInput → Except AwsError ImportKeyPairOutput)
    (addAWSTagsResult : String → List (String × String) → Option String) :
    List AwsCall × GoResult SSHKey :=
  match a with
  | none => e.createKeypair ec2ImportKeyPair
  | some _ =>
    if !e.Shared then
      match e.ID with
      | none => ([], GoResult.panic)
      | some id =>
        match addAWSTagsResult id e.Tags with
        | some m => ([AwsCall.addAWSTags id e.Tags], GoResult.error m)
        | none => ([AwsCall.addAWSTags id e.Tags], GoResult.ok e)
    else ([], GoResult.ok e)

/-- A `terraformWriter.Literal`: either the file-reference returned by
`AddFileResource`, a literal string value, or a property reference
`resourceType.tfName.prop` produced by `LiteralProperty`. -/
inductive TFLiteral where
  | fileRef (resourceType tfName key : String)
  | stringValue (s : String)
  | property (resourceType tfName prop : String)
deriving DecidableEq, Repr

/-- The `terraformSSHKey` struct (sshkey.go lines 192–196), serialized with
cty keys `key_name`, `public_key`, `tags`. -/
structure TerraformSSHKey where
  Name : Option String
  PublicKey : TFLiteral
  Tags : List (String × String)
deriving DecidableEq, Repr

/-- The deferred terraform document held by the terraform target: the file
resources written so far and the emitted resource blocks, each as
(resource type, terraform name, payload). -/
structure TerraformTarget where
  files : List (String × String × String × String) := []
  resources : List (String × String × TerraformSSHKey) := []
deriving DecidableEq, Repr

/-- Modelled from the spec: `terraformWriter.AddFileResource` (package
`terraformWriter`, not under `src/`) records the resource contents as a named
file in the deferred document and returns an indirect file-reference literal
usable before the document is finalized; a resource that is nil or cannot be
read is an error. -/
def TerraformTarget.AddFileResource (t : TerraformTarget)
    (resourceType tfName key : String) (r : Option Resource) :
    Except String (TerraformTarget × TFLiteral) :=
  match r with
  | none => Except.error "resource is nil"
  | some (Except.error m) => Except.error m
  | some (Except.ok contents) =>
    Except.ok ({ t with files := t.files ++ [(resourceType, tfName, key, contents)] },
               TFLiteral.fileRef resourceType tfName key)

/-- Modelled from the spec: `terraform.TerraformTarget.RenderResource` (not
under `src/`) appends one named, typed resource block to the deferred
document. -/
def TerraformTarget.RenderResource (t : TerraformTarget) (resourceType tfName : String)
    (e : TerraformSSHKey) : TerraformTarget :=
  { t with resources := t.resources ++ [(resourceType, tfName, e)] }

/-- `RenderTerraform` (sshkey.go lines 198–216): an existing key renders
nothing; otherwise the terraform name is the Name with colons removed
(dereferencing `*e.Name`), the public key is written as a file resource, and
one `aws_key_pair` block is emitted. -/
def SSHKey.RenderTerraform (t : TerraformTarget) (_a : Option SSHKey)
    (e _changes : SSHKey) : GoResult TerraformTarget :=
  if e.IsExistingKey then GoResult.ok t
  else
    (deref e.Name).bind (fun n =>
      let tfName := removeColons n
      match t.AddFileResource "aws_key_pair" tfName "public_key" e.PublicKey with
      | Except.error m => GoResult.error ("error rendering PublicKey: " ++ m)
      | Except.ok (t1, publicKey) =>
        GoResult.ok (t1.RenderResource "aws_key_pair" tfName
          { Name := e.Name, PublicKey := publicKey, Tags := e.Tags }))

/-- `TerraformLink` (sshkey.go lines 224–233): nil when the task names no key
at all; the literal Name for an existing key; otherwise the indirect property
reference `aws_key_pair.<tfName>.id`. Both non-nil branches dereference
`*e.Name`. -/
def SSHKey.TerraformLink (e : SSHKey) : GoResult (Option TFLiteral) :=
  if e.NoSSHKey then GoResult.ok none
  else if e.IsExistingKey then
    (deref e.Name).bind (fun n => GoResult.ok (some (TFLiteral.stringValue n)))
  else
    (deref e.Name).bind (fun n =>
      GoResult.ok (some (TFLiteral.property "aws_key_pair" (removeColons n) "id")))

/-- The node distributions the logrotate builder distinguishes, plus
representative others (`util/pkg/distributions`). -/
inductive Distribution where
  | amazonLinux2
  | centos7
  | containerOS
  | debian11
  | flatcar
  | rhel8
  | ubuntu2004
deriving DecidableEq, Repr

/-- A nodeup task emitted by the logrotate builder: a package to install, a
systemd service (its definition kept as the manifest's ordered
section/key/value settings — rendering the unit text is the external systemd
collaborator's job), or a file with contents and mode. -/
inductive NodeTask where
  | package (name : String)
  | service (name : String) (definition : List (String × String × String))
  | file (path contents mode : String)
deriving DecidableEq, Repr

/-- `logRotateOptions` (part_001 lines 108–111). -/
structure logRotateOptions where
  MaxSize : String := ""
  DateFormat : String := ""
deriving DecidableEq, Repr

/-- The lines of the stanza `addLogRotate` assembles (part_001 lines
114–143): default the max size to 100M, on Flatcar force a dateformat, and
include a `dateformat` line exactly when one is set. -/
def logRotateLines (dist : Distribution) (path : String)
    (options : logRotateOptions) : List String :=
  let options := if options.MaxSize = "" then { options with MaxSize := "100M" } else options
  let options :=
    if dist = Distribution.flatcar then { options with DateFormat := "-%Y%m%d-%s" }
    else options
  let lines : List String :=
    [path ++ "\x7b",
     "  rotate 5",
     "  copytruncate",
     "  missingok",
     "  notifempty",
     "  delaycompress",
     "  maxsize " ++ options.MaxSize]
  let lines := lines ++ (if options.DateFormat ≠ "" then ["  dateformat " ++ options.DateFormat] else [])
  lines ++
    ["  daily",
     "  create 0644 root root",
     "\x7d"]

/-- `addLogRotate` (part_001 lines 113–153): emit the joined stanza as a
0644 file under `/etc/logrotate.d/`. -/
def addLogRotate (dist : Distribution) (name path : String)
    (options : logRotateOptions) : NodeTask :=
  NodeTask.file ("/etc/logrotate.d/" ++ name)
    (String.intercalate "\n" (logRotateLines dist path options) ++ "\n") "0644"

/-- `addLogrotateService` (part_001 lines 87–106): Flatcar and ContainerOS
already ship a logrotate service; everywhere else emit `logrotate.service`.
The Go method returns a nil error in every branch, so the model returns the
task list directly. -/
def addLogrotateService (dist : Distribution) : List NodeTask :=
  match dist with
  | Distribution.flatcar => []
  | Distribution.containerOS => []
  | _ =>
    [NodeTask.service "logrotate.service"
      [("Unit", "Description", "Rotate and Compress System Logs"),
       ("Service", "ExecStart", "/usr/sbin/logrotate /etc/logrotate.conf")]]

/-- The hourly timer task (part_001 lines 68–81). -/
def logrotateTimerTask : NodeTask :=
  NodeTask.service "logrotate.timer"
    [("Unit", "Description", "Hourly Log Rotation"),
     ("Timer", "OnCalendar", "hourly")]

/-- The kubernetes logs `Build` always rotates (part_001 lines 50–58), in
the order the builder adds them. -/
def kubernetesLogs : List (String × String) :=
  [("docker", "/var/log/docker.log"),
   ("kube-addons", "/var/log/kube-addons.log"),
   ("kube-apiserver", "/var/log/kube-apiserver.log"),
   ("kube-controller-manager", "/var/log/kube-controller-manager.log"),
   ("kube-proxy", "/var/log/kube-proxy.log"),
   ("kube-scheduler", "/var/log/kube-scheduler.log"),
   ("kubelet", "/var/log/kubelet.log"),
   ("etcd", "/var/log/etcd.log"),
   ("etcd-events", "/var/log/etcd-events.log")]

/-- The logrotate model builder. `useCiliumEtcd` models
`model.UseCiliumEtcd(b.Cluster)` (package `pkg/apis/kops/model`, not under
`src/`): whether the cluster configuration uses Cilium's etcd. -/
structure LogrotateBuilder where
  Distribution : Distribution
  useCiliumEtcd : Bool
deriving DecidableEq, Repr

/-- `Build` (part_001 lines 39–84): ContainerOS gets nothing; Flatcar skips
the package; then one config file per log (plus etcd-cilium when Cilium etcd
is in use), the logrotate service where needed, and the hourly timer. The Go
method only appends tasks to the build context and returns nil, so the model
returns the appended task list. -/
def LogrotateBuilder.Build (b : LogrotateBuilder) : Except String (List NodeTask) :=
  match b.Distribution with
  | Distribution.containerOS => Except.ok []
  | dist =>
    let packages :=
      if dist = Distribution.flatcar then [] else [NodeTask.package "logrotate"]
    let logs := kubernetesLogs ++
      (if b.useCiliumEtcd then [("etcd-cilium", "/var/log/etcd-cilium.log")] else [])
    let files := logs.map (fun np => addLogRotate dist np.1 np.2 {})
    Except.ok (packages ++ files ++ addLogrotateService dist ++ [logrotateTimerTask])

/-- Whether a node task is a systemd service of the given name. -/
def isServiceNamed (nm : String) : NodeTask → Bool
  | NodeTask.service n _ => n == nm
  | _ => false

/-- Whether a node task is a file at the given path. -/
def isFileAtPath (p : String) : NodeTask → Bool
  | NodeTask.file pa _ _ => pa == p
  | _ => false

/-! ## Theorems -/

/-- C2: `CheckChanges` returns the "cannot change field" error for the field
Name exactly when the actual is non-nil and the change-set's Name is non-nil;
with a nil actual it returns nil regardless of the change-set. -/
theorem C2_CheckChanges_name_immutable (a : Option SSHKey) (e changes : SSHKey) :
    (SSHKey.CheckChanges a e changes = GoResult.error (CannotChangeField "Name")
      ↔ (a ≠ none ∧ changes.Name ≠ none))
    ∧ (a = none → SSHKey.CheckChanges a e changes = GoResult.ok ()) := by
  cases a <;> cases h : changes.Name <;>
    simp [SSHKey.CheckChanges, h]

/-- C2 witness: `C2_CheckChanges_name_immutable` at an existing resource and
a change-set with a changed Name. -/
theorem C2_CheckChanges_name_immutable_w :
    SSHKey.CheckChanges (some {}) {} { Name := some "renamed" }
      = GoResult.error (CannotChangeField "Name") :=
  (C2_CheckChanges_name_immutable (some {}) {} { Name := some "renamed" }).1.mpr
    (And.intro (by simp) (by simp))

/-- C4: when the backend lists two or more key pairs for the task's Name,
`find` returns the ambiguity error and never selects a candidate. -/
theorem C4_find_multiple_matches_error (e : SSHKey) (k1 k2 : KeyPairInfo)
    (rest : List KeyPairInfo) (n : String) (hname : e.Name = some n) :
    e.find (some (k1 :: k2 :: rest)) none
      = GoResult.error ("Found multiple SSHKeys with Name " ++ goQuote n) := by
  simp [SSHKey.find, hname, deref, GoResult.bind]

/-- C4 witness: `C4_find_multiple_matches_error` on a two-element response. -/
theorem C4_find_multiple_matches_error_w :
    SSHKey.find { Name := some "k" } (some [{}, {}]) none
      = GoResult.error ("Found multiple SSHKeys with Name " ++ goQuote "k") :=
  C4_find_multiple_matches_error { Name := some "k" } {} {} [] "k" rfl

/-- C1 counterexample: for a task initialized without a public key
(`IsExistingKey`) and with the non-empty Name "mykey", `find` on a genuinely
absent resource (the provider reports `InvalidKeyPair.NotFound`) returns an
error, not the nil-actual/no-error result the claim asserts for every task. -/
theorem C1_find_absent_existing_key_cex :
    SSHKey.find { Name := some "mykey" } none
        (some { code := some "InvalidKeyPair.NotFound",
                message := "InvalidKeyPair.NotFound: no key" })
      = GoResult.error ("unable to find specified SSH key " ++ goQuote "mykey") := by
  rfl

/-- C1 (amended): `find` on a genuinely absent resource (empty or nil
response, after the provider's `InvalidKeyPair.NotFound` error code is
cleared) returns a nil actual with no error for every task except one
initialized without a public key (`IsExistingKey`) whose Name is non-empty,
for which absence is the hard "unable to find specified SSH key" error; and
`find` on any other backend error returns a non-nil error. -/
theorem C1_find_absent_vs_error (e : SSHKey) (response : Option (List KeyPairInfo))
    (err : Option AwsError) :
    (((response = none ∨ response = some []) ∧
      (err = none ∨ ∃ a, err = some a ∧ a.code = some "InvalidKeyPair.NotFound")) →
      ((e.IsExistingKey = false ∨ e.Name = some "") →
         e.find response err = GoResult.ok (none, e)) ∧
      (∀ n, e.IsExistingKey = true → e.Name = some n → n ≠ "" →
         e.find response err
           = GoResult.error ("unable to find specified SSH key " ++ goQuote n)))
    ∧ (∀ a, err = some a → a.code ≠ some "InvalidKeyPair.NotFound" →
        e.find response err = GoResult.error ("error listing SSHKeys: " ++ a.message)) := by
  constructor
  · rintro ⟨habs, herr⟩
    have hfind : e.find response err = e.findAbsent := by
      rcases herr with rfl | ⟨a, rfl, hcode⟩
      · rcases habs with rfl | rfl <;> simp [SSHKey.find]
      · rcases habs with rfl | rfl <;> simp [SSHKey.find, hcode]
    rw [hfind]
    constructor
    · rintro (hex | hname)
      · simp [SSHKey.findAbsent, hex]
      · cases hex : e.IsExistingKey <;>
          simp [SSHKey.findAbsent, hex, hname, deref, GoResult.bind]
    · intro n hex hname hne
      simp [SSHKey.findAbsent, hex, hname, deref, GoResult.bind, hne]
  · rintro a rfl hcode
    simp [SSHKey.find, hcode]

/-- C1 witness: `C1_find_absent_vs_error` at a task with a public key and an
empty response — absence is nil actual with no error. -/
theorem C1_find_absent_vs_error_w :
    SSHKey.find { Name := some "k", PublicKey := some (Except.ok "pub") } (some []) none
      = GoResult.ok (none, { Name := some "k", PublicKey := some (Except.ok "pub") }) :=
  ((C1_find_absent_vs_error
      { Name := some "k", PublicKey := some (Except.ok "pub") } (some []) none).1
    (And.intro (Or.inr rfl) (Or.inl rfl))).1 (Or.inl rfl)

/-- C6: `Normalize` fills in `KeyFingerprint` from the public key exactly when
`KeyFingerprint` is nil and `PublicKey` is non-nil, and changes nothing else:
on success every other field is unchanged, and when the fingerprint is already
set or no public key exists the task is returned untouched. The embedding of
`Normalize` is a pure function of the fingerprint computation and the task, so
two calls on equal tasks yield equal results by definition. -/
theorem C6_Normalize_fills_fingerprint_only
    (fp : String → Except String String) (e : SSHKey) :
    (∀ e1, SSHKey.Normalize fp e = GoResult.ok e1 →
       e1.ID = e.ID ∧ e1.Name = e.Name ∧ e1.Lifecycle = e.Lifecycle ∧
       e1.Shared = e.Shared ∧ e1.PublicKey = e.PublicKey ∧ e1.Tags = e.Tags)
    ∧ ((e.KeyFingerprint ≠ none ∨ e.PublicKey = none) →
       SSHKey.Normalize fp e = GoResult.ok e)
    ∧ (∀ s f, e.KeyFingerprint = none → e.PublicKey = some (Except.ok s) →
       fp s = Except.ok f →
       SSHKey.Normalize fp e = GoResult.ok { e with KeyFingerprint := some f }) := by
  refine ⟨?_, ?_, ?_⟩
  · intro e1 h
    cases hkf : e.KeyFingerprint <;> cases hpk : e.PublicKey <;>
      simp [SSHKey.Normalize, hkf, hpk] at h
    case none.none =>
      subst h; simp_all
    case none.some r =>
      cases r with
      | error m => simp [ResourceAsString] at h
      | ok s =>
        cases hfp : fp s with
        | error m => simp [ResourceAsString, hfp] at h
        | ok f =>
          simp [ResourceAsString, hfp] at h
          subst h; simp_all
    case some.none => subst h; simp_all
    case some.some r => subst h; simp_all
  · rintro (hkf | hpk)
    · cases h : e.KeyFingerprint
      · exact absurd h hkf
      · cases hpk : e.PublicKey <;> simp [SSHKey.Normalize, h, hpk]
    · cases hkf : e.KeyFingerprint <;> simp [SSHKey.Normalize, hkf, hpk]
  · intro s f hkf hpk hfp
    simp [SSHKey.Normalize, hkf, hpk, ResourceAsString, hfp]

/-- C6 witness: `C6_Normalize_fills_fingerprint_only` at a task with a
readable public key and no fingerprint. -/
theorem C6_Normalize_fills_fingerprint_only_w :
    SSHKey.Normalize (fun s => Except.ok ("fp-of-" ++ s))
        { Name := some "k", PublicKey := some (Except.ok "pub") }
      = GoResult.ok { Name := some "k", PublicKey := some (Except.ok "pub"),
                      KeyFingerprint := some ("fp-of-" ++ "pub") } :=
  (C6_Normalize_fills_fingerprint_only (fun s => Except.ok ("fp-of-" ++ s))
      { Name := some "k", PublicKey := some (Except.ok "pub") }).2.2
    "pub" ("fp-of-" ++ "pub") rfl rfl rfl

/-! ### Helper lemmas about `find` -/

lemma findActual_ID (e : SSHKey) (k : KeyPairInfo) :
    (e.findActual k).ID = k.KeyPairId := by
  simp only [SSHKey.findActual]
  split_ifs <;> rfl

lemma findActual_Lifecycle (e : SSHKey) (k : KeyPairInfo) :
    (e.findActual k).Lifecycle = e.Lifecycle := by
  simp only [SSHKey.findActual]
  split_ifs <;> rfl

lemma findActual_Shared (e : SSHKey) (k : KeyPairInfo) :
    (e.findActual k).Shared = e.Shared := by
  simp only [SSHKey.findActual]
  split_ifs <;> rfl

lemma findActual_PublicKey_conv (e : SSHKey) (k : KeyPairInfo)
    (hconv : normalizedFingerprint k = valueOf e.KeyFingerprint) :
    (e.findActual k).PublicKey = e.PublicKey := by
  unfold normalizedFingerprint at hconv
  simp only [SSHKey.findActual]
  split_ifs at hconv ⊢ <;> simp_all [valueOf]

lemma findActual_Tags_shared (e : SSHKey) (k : KeyPairInfo) (h : e.Shared = true) :
    (e.findActual k).Tags = e.Tags := by
  simp only [SSHKey.findActual]
  split_ifs <;> simp_all

lemma findOne_cases (e : SSHKey) (k : KeyPairInfo) :
    (e.PublicKey = none ∧ e.Name = none ∧ e.findOne k = GoResult.panic)
    ∨ (∃ n, e.PublicKey = none ∧ e.Name = some n ∧
        e.findOne k = GoResult.ok (some (e.findActual k),
          if n = "" then { e with ID := (e.findActual k).ID }
          else { e with ID := (e.findActual k).ID,
                        KeyFingerprint := (e.findActual k).KeyFingerprint }))
    ∨ (e.PublicKey ≠ none ∧
        e.findOne k = GoResult.ok (some (e.findActual k),
          { e with ID := (e.findActual k).ID })) := by
  cases hp : e.PublicKey with
  | some r =>
    refine Or.inr (Or.inr ⟨by simp [hp], ?_⟩)
    simp [SSHKey.findOne, SSHKey.IsExistingKey, hp]
  | none =>
    cases hn : e.Name with
    | none =>
      refine Or.inl ⟨rfl, rfl, ?_⟩
      simp [SSHKey.findOne, SSHKey.IsExistingKey, hp, hn, deref, GoResult.bind]
    | some n =>
      refine Or.inr (Or.inl ⟨n, rfl, rfl, ?_⟩)
      by_cases hne : n = "" <;>
        simp [SSHKey.findOne, SSHKey.IsExistingKey, hp, hn, deref, GoResult.bind, hne]

lemma findOne_ok_shape (e : SSHKey) (k : KeyPairInfo) (a e1 : SSHKey)
    (h : e.findOne k = GoResult.ok (some a, e1)) :
    a = e.findActual k ∧ e1.ID = a.ID ∧ e1.Name = e.Name ∧ e1.PublicKey = e.PublicKey := by
  rcases findOne_cases e k with ⟨hp, hn, hpanic⟩ | ⟨n, hp, hn, heq⟩ | ⟨hp, heq⟩
  · rw [hpanic] at h; cases h
  · rw [heq] at h
    simp only [GoResult.ok.injEq, Prod.mk.injEq, Option.some.injEq] at h
    obtain ⟨ha, he1⟩ := h
    subst ha; subst he1
    by_cases hne : n = "" <;> simp [hne]
  · rw [heq] at h
    simp only [GoResult.ok.injEq, Prod.mk.injEq, Option.some.injEq] at h
    obtain ⟨ha, he1⟩ := h
    subst ha; subst he1
    simp

lemma findOne_ok_exists (e : SSHKey) (k : KeyPairInfo)
    (h : ¬(e.PublicKey = none ∧ e.Name = none)) :
    ∃ a2 e2, e.findOne k = GoResult.ok (some a2, e2)
      ∧ a2.ID = k.KeyPairId ∧ e2.ID = k.KeyPairId := by
  rcases findOne_cases e k with ⟨hp, hn, hpanic⟩ | ⟨n, hp, hn, heq⟩ | ⟨hp, heq⟩
  · exact absurd ⟨hp, hn⟩ h
  · refine ⟨_, _, heq, findActual_ID e k, ?_⟩
    by_cases hne : n = "" <;> simp [hne, findActual_ID]
  · exact ⟨_, _, heq, findActual_ID e k, by simp [findActual_ID]⟩

lemma find_one_keypair (e : SSHKey) (k : KeyPairInfo) :
    e.find (some [k]) none = e.findOne k := by
  simp [SSHKey.find]

lemma find_clear_notfound (e : SSHKey) (resp : Option (List KeyPairInfo)) (aerr : AwsError)
    (hc : aerr.code = some "InvalidKeyPair.NotFound") :
    e.find resp (some aerr) = e.find resp none := by
  simp [SSHKey.find, hc]

lemma findAbsent_not_some (e a e1 : SSHKey) :
    e.findAbsent ≠ GoResult.ok (some a, e1) := by
  unfold SSHKey.findAbsent
  intro h
  cases hex : e.IsExistingKey
  · simp [hex] at h
  · rcases hn : e.Name with _ | n
    · simp [hex, hn, deref, GoResult.bind] at h
    · by_cases hne : n = "" <;> simp [hex, hn, deref, GoResult.bind, hne] at h

lemma find_ok_some_inv (e a e1 : SSHKey) (response : Option (List KeyPairInfo))
    (err : Option AwsError) (h : e.find response err = GoResult.ok (some a, e1)) :
    (∃ k, response = some [k] ∧ e.findOne k = GoResult.ok (some a, e1)) ∧
    (err = none ∨ ∃ aerr, err = some aerr ∧ aerr.code = some "InvalidKeyPair.NotFound") := by
  have herr : err = none ∨ ∃ aerr, err = some aerr ∧ aerr.code = some "InvalidKeyPair.NotFound" := by
    rcases err with _ | aerr
    · exact Or.inl rfl
    · by_cases hc : aerr.code = some "InvalidKeyPair.NotFound"
      · exact Or.inr ⟨aerr, rfl, hc⟩
      · exfalso; simp [SSHKey.find, hc] at h
  have hstep : e.find response err = e.find response none := by
    rcases herr with rfl | ⟨aerr, rfl, hc⟩
    · rfl
    · exact find_clear_notfound e response aerr hc
  rw [hstep] at h
  refine ⟨?_, herr⟩
  rcases response with _ | ls
  · exact absurd (by simpa [SSHKey.find] using h) (findAbsent_not_some e a e1)
  · match ls with
    | [] => exact absurd (by simpa [SSHKey.find] using h) (findAbsent_not_some e a e1)
    | [k] => exact ⟨k, rfl, by simpa [SSHKey.find] using h⟩
    | k1 :: k2 :: rest =>
      exfalso
      rcases hn : e.Name with _ | n <;>
        simp [SSHKey.find, hn, deref, GoResult.bind] at h

/-! ### Helper lemmas about `createKeypair` -/

lemma createKeypair_ok_inv (e : SSHKey)
    (f : ImportKeyPairInput → Except AwsError ImportKeyPairOutput)
    (calls : List AwsCall) (e2 : SSHKey)
    (h : e.createKeypair f = (calls, GoResult.ok e2)) :
    ∃ req out, f req = Except.ok out
      ∧ calls = [AwsCall.importKeyPair req]
      ∧ req.KeyName = e.Name ∧ req.Tags = e.Tags
      ∧ e2.KeyFingerprint = out.KeyFingerprint ∧ e2.ID = out.KeyPairId := by
  rcases hn : e.Name with _ | n
  · simp [SSHKey.createKeypair, hn] at h
  · rcases hp : e.PublicKey with _ | r
    · cases himp : f { KeyName := some n, Tags := e.Tags, PublicKeyMaterial := none } with
      | error aerr =>
        simp [SSHKey.createKeypair, SSHKey.importAndStore, hn, hp, himp] at h
      | ok out =>
        simp only [SSHKey.createKeypair, SSHKey.importAndStore, hn, hp, himp,
          Prod.mk.injEq, GoResult.ok.injEq] at h
        obtain ⟨hcalls, he2⟩ := h
        subst he2
        exact ⟨_, out, himp, by simp [hcalls], rfl, rfl, rfl, rfl⟩
    · cases r with
      | error m => simp [SSHKey.createKeypair, hn, hp] at h
      | ok d =>
        cases himp : f { KeyName := some n, Tags := e.Tags, PublicKeyMaterial := some d } with
        | error aerr =>
          simp [SSHKey.createKeypair, SSHKey.importAndStore, hn, hp, himp] at h
        | ok out =>
          simp only [SSHKey.createKeypair, SSHKey.importAndStore, hn, hp, himp,
            Prod.mk.injEq, GoResult.ok.injEq] at h
          obtain ⟨hcalls, he2⟩ := h
          subst he2
          exact ⟨_, out, himp, by simp [hcalls], rfl, rfl, rfl, rfl⟩

lemma createKeypair_calls (e : SSHKey)
    (f : ImportKeyPairInput → Except AwsError ImportKeyPairOutput) :
    (e.createKeypair f).1 = [] ∨
    ∃ req, (e.createKeypair f).1 = [AwsCall.importKeyPair req]
      ∧ req.KeyName = e.Name ∧ req.Tags = e.Tags
      ∧ (∀ d, e.PublicKey = some (Except.ok d) → req.PublicKeyMaterial = some d) := by
  rcases hn : e.Name with _ | n
  · left; simp [SSHKey.createKeypair, hn]
  · rcases hp : e.PublicKey with _ | r
    · right
      refine ⟨{ KeyName := some n, Tags := e.Tags, PublicKeyMaterial := none }, ?_,
        rfl, rfl, by intro d hd; cases hd⟩
      cases himp : f { KeyName := some n, Tags := e.Tags, PublicKeyMaterial := none } <;>
        simp [SSHKey.createKeypair, SSHKey.importAndStore, hn, hp, himp]
    · cases r with
      | error m => left; simp [SSHKey.createKeypair, hn, hp]
      | ok d =>
        right
        refine ⟨{ KeyName := some n, Tags := e.Tags, PublicKeyMaterial := some d }, ?_,
          rfl, rfl, ?_⟩
        · cases himp : f { KeyName := some n, Tags := e.Tags, PublicKeyMaterial := some d } <;>
            simp [SSHKey.createKeypair, SSHKey.importAndStore, hn, hp, himp]
        · intro d2 hd2
          simp only [Option.some.injEq, Except.ok.injEq] at hd2
          subst hd2
          rfl

/-- C3: when the backend's single key pair is converged with the expectation
(its fingerprint, after the Ed25519 `SHA256:` normalization, equals the
expected `KeyFingerprint`), the actual returned by `find` carries the
expected `PublicKey`, `Lifecycle` and — when `Shared` — `Tags`, and the
expected task receives the discovered ID; and a successful `createKeypair`
stores the backend-assigned `KeyFingerprint` and `ID` into the expected
task, so a subsequent `find` reports the applied state. -/
theorem C3_converged_find_copies_and_create_stores (e : SSHKey) (k : KeyPairInfo)
    (n : String) (hname : e.Name = some n)
    (hconv : normalizedFingerprint k = valueOf e.KeyFingerprint)
    (ec2ImportKeyPair : ImportKeyPairInput → Except AwsError ImportKeyPairOutput) :
    (∃ a e1, e.find (some [k]) none = GoResult.ok (some a, e1)
      ∧ a.PublicKey = e.PublicKey
      ∧ a.Lifecycle = e.Lifecycle
      ∧ (a.Shared = true → a.Tags = e.Tags)
      ∧ e1.ID = a.ID)
    ∧ (∀ calls e2, e.createKeypair ec2ImportKeyPair = (calls, GoResult.ok e2) →
       ∃ req out, ec2ImportKeyPair req = Except.ok out
         ∧ calls = [AwsCall.importKeyPair req]
         ∧ req.KeyName = e.Name ∧ req.Tags = e.Tags
         ∧ e2.KeyFingerprint = out.KeyFingerprint ∧ e2.ID = out.KeyPairId) := by
  constructor
  · rw [find_one_keypair]
    rcases findOne_cases e k with ⟨hp, hn, hpanic⟩ | ⟨m, hp, hn, heq⟩ | ⟨hp, heq⟩
    · rw [hname] at hn; cases hn
    · refine ⟨_, _, heq, findActual_PublicKey_conv e k hconv, findActual_Lifecycle e k,
        ?_, ?_⟩
      · intro hsh
        rw [findActual_Shared] at hsh
        exact findActual_Tags_shared e k hsh
      · by_cases hm : m = "" <;> simp [hm]
    · refine ⟨_, _, heq, findActual_PublicKey_conv e k hconv, findActual_Lifecycle e k,
        ?_, by simp⟩
      intro hsh
      rw [findActual_Shared] at hsh
      exact findActual_Tags_shared e k hsh
  · intro calls e2 h
    exact createKeypair_ok_inv e ec2ImportKeyPair calls e2 h

/-- C3 witness: `C3_converged_find_copies_and_create_stores` at a converged
non-shared task whose stored RSA fingerprint matches. -/
theorem C3_converged_find_copies_and_create_stores_w :
    ∃ a e1, SSHKey.find
        { Name := some "k", PublicKey := some (Except.ok "pub"),
          KeyFingerprint := some "aa:bb" }
        (some [{ KeyPairId := some "kp-1", KeyName := some "k",
                 KeyFingerprint := some "aa:bb" }]) none
      = GoResult.ok (some a, e1)
      ∧ a.PublicKey = some (Except.ok "pub")
      ∧ a.Lifecycle = ""
      ∧ (a.Shared = true → a.Tags = [])
      ∧ e1.ID = a.ID :=
  (C3_converged_find_copies_and_create_stores
      { Name := some "k", PublicKey := some (Except.ok "pub"),
        KeyFingerprint := some "aa:bb" }
      { KeyPairId := some "kp-1", KeyName := some "k", KeyFingerprint := some "aa:bb" }
      "k" rfl (by rfl) (fun _ => Except.ok {})).1

/-- C7: a `find` that resolves the task's identity stores the discovered key
pair ID into the expected task, leaves the comparison identity
(`CompareWithID`, the Name) unchanged, and a second `find` against the
unchanged backend reply rediscovers the same ID. -/
theorem C7_identity_resolution_stable (e a e1 : SSHKey)
    (response : Option (List KeyPairInfo)) (err : Option AwsError)
    (hfind : e.find response err = GoResult.ok (some a, e1)) :
    e1.ID = a.ID ∧ e1.CompareWithID = e.CompareWithID ∧
    ∃ a2 e2, e1.find response err = GoResult.ok (some a2, e2)
      ∧ a2.ID = a.ID ∧ e2.ID = a.ID := by
  obtain ⟨⟨k, hresp, hone⟩, herr⟩ := find_ok_some_inv e a e1 response err hfind
  obtain ⟨ha, hid, hnm, hpk⟩ := findOne_ok_shape e k a e1 hone
  subst hresp
  have hpre : ¬(e1.PublicKey = none ∧ e1.Name = none) := by
    rintro ⟨h1, h2⟩
    rw [hpk] at h1; rw [hnm] at h2
    rcases findOne_cases e k with ⟨_, _, hpanic⟩ | ⟨n, hp2, hn2, _⟩ | ⟨hp2, _⟩
    · rw [hpanic] at hone; cases hone
    · rw [hn2] at h2; cases h2
    · exact hp2 h1
  obtain ⟨a2, e2, heq2, hid2, hid3⟩ := findOne_ok_exists e1 k hpre
  have haid : a.ID = k.KeyPairId := by rw [ha, findActual_ID]
  have hrw : e1.find (some [k]) err = e1.findOne k := by
    rcases herr with rfl | ⟨aerr, rfl, hc⟩
    · exact find_one_keypair e1 k
    · rw [find_clear_notfound e1 _ aerr hc]; exact find_one_keypair e1 k
  exact ⟨hid, by simp [SSHKey.CompareWithID, hnm], a2, e2, by rw [hrw]; exact heq2,
    by rw [hid2, haid], by rw [hid3, haid]⟩

/-- C7 witness: `C7_identity_resolution_stable` at a task found by name. -/
theorem C7_identity_resolution_stable_w :
    ∃ a e1, SSHKey.find { Name := some "k", PublicKey := some (Except.ok "p") }
        (some [{ KeyPairId := some "kp-1", KeyName := some "k" }]) none
        = GoResult.ok (some a, e1) ∧ e1.ID = a.ID := by
  have h : SSHKey.find { Name := some "k", PublicKey := some (Except.ok "p") }
      (some [{ KeyPairId := some "kp-1", KeyName := some "k" }]) none
      = GoResult.ok
        (some { ID := some "kp-1", Name := some "k", Lifecycle := "", Shared := false,
                PublicKey := some (Except.ok "p"), KeyFingerprint := none, Tags := [] },
         { ID := some "kp-1", Name := some "k", Lifecycle := "", Shared := false,
           PublicKey := some (Except.ok "p"), KeyFingerprint := none, Tags := [] }) := by
    rfl
  exact ⟨_, _, h,
    (C7_identity_resolution_stable _ _ _ _ _ h).1⟩

/-- C5: `RenderAWS` performs the `ImportKeyPair` create exactly on a nil
actual — the request carrying the expected Name, Tags and public key
material — while with a non-nil actual the only possible backend call is the
tag re-assertion on the key's ID for a non-shared key, and for a shared key
it performs no backend call at all and returns nil. -/
theorem C5_RenderAWS_create_iff_absent (a : Option SSHKey) (e changes : SSHKey)
    (f : ImportKeyPairInput → Except AwsError ImportKeyPairOutput)
    (g : String → List (String × String) → Option String) :
    (∀ req, AwsCall.importKeyPair req ∈ (SSHKey.RenderAWS a e changes f g).1 →
      a = none ∧ req.KeyName = e.Name ∧ req.Tags = e.Tags
        ∧ (∀ d, e.PublicKey = some (Except.ok d) → req.PublicKeyMaterial = some d))
    ∧ (a = none → (∃ n, e.Name = some n) →
        (e.PublicKey = none ∨ ∃ d, e.PublicKey = some (Except.ok d)) →
        ∃ req, (SSHKey.RenderAWS a e changes f g).1 = [AwsCall.importKeyPair req]
          ∧ req.KeyName = e.Name ∧ req.Tags = e.Tags)
    ∧ (∀ a0, a = some a0 → e.Shared = true →
        SSHKey.RenderAWS a e changes f g = ([], GoResult.ok e))
    ∧ (∀ a0 id, a = some a0 → e.Shared = false → e.ID = some id →
        (SSHKey.RenderAWS a e changes f g).1 = [AwsCall.addAWSTags id e.Tags]) := by
  refine ⟨?_, ?_, ?_, ?_⟩
  · intro req hmem
    cases a with
    | some a0 =>
      exfalso
      cases hsh : e.Shared
      · rcases hid : e.ID with _ | id
        · simp [SSHKey.RenderAWS, hsh, hid] at hmem
        · rcases hg : g id e.Tags with _ | m <;>
            simp [SSHKey.RenderAWS, hsh, hid, hg] at hmem
      · simp [SSHKey.RenderAWS, hsh] at hmem
    | none =>
      refine ⟨rfl, ?_⟩
      have hmem2 : AwsCall.importKeyPair req ∈ (e.createKeypair f).1 := hmem
      rcases createKeypair_calls e f with hc | ⟨req2, hc, h1, h2, h3⟩
      · rw [hc] at hmem2; cases hmem2
      · rw [hc] at hmem2
        simp only [List.mem_singleton, AwsCall.importKeyPair.injEq] at hmem2
        subst hmem2
        exact ⟨h1, h2, h3⟩
  · rintro rfl ⟨n, hn⟩ hpk
    have hrw : SSHKey.RenderAWS none e changes f g = e.createKeypair f := rfl
    rw [hrw]
    rcases hpk with hp | ⟨d, hp⟩
    · refine ⟨{ KeyName := some n, Tags := e.Tags, PublicKeyMaterial := none }, ?_,
        hn.symm, rfl⟩
      cases himp : f { KeyName := some n, Tags := e.Tags, PublicKeyMaterial := none } <;>
        simp [SSHKey.createKeypair, SSHKey.importAndStore, hn, hp, himp]
    · refine ⟨{ KeyName := some n, Tags := e.Tags, PublicKeyMaterial := some d }, ?_,
        hn.symm, rfl⟩
      cases himp : f { KeyName := some n, Tags := e.Tags, PublicKeyMaterial := some d } <;>
        simp [SSHKey.createKeypair, SSHKey.importAndStore, hn, hp, himp]
  · rintro a0 rfl hsh
    simp [SSHKey.RenderAWS, hsh]
  · rintro a0 id rfl hsh hid
    rcases hg : g id e.Tags with _ | m <;> simp [SSHKey.RenderAWS, hsh, hid, hg]

/-- C5 witness: `C5_RenderAWS_create_iff_absent` at a nil actual with a
readable public key — the single backend call is the import. -/
theorem C5_RenderAWS_create_iff_absent_w :
    ∃ req, (SSHKey.RenderAWS none
        { Name := some "k", PublicKey := some (Except.ok "pub") } {}
        (fun _ => Except.ok {}) (fun _ _ => none)).1
      = [AwsCall.importKeyPair req]
      ∧ req.KeyName = some "k" ∧ req.Tags = [] :=
  (C5_RenderAWS_create_iff_absent none
      { Name := some "k", PublicKey := some (Except.ok "pub") } {}
      (fun _ => Except.ok {}) (fun _ _ => none)).2.1 rfl ⟨"k", rfl⟩
    (Or.inr ⟨"pub", rfl⟩)

/-- C8: for a task with a public key, `RenderTerraform` emits exactly one
`aws_key_pair` resource block, named by the task's Name with every colon
removed, carrying the key name, a file-resource reference for the public key
and the tags, and `TerraformLink` returns the indirect property reference
`aws_key_pair.<name>.id`; for a task with nil PublicKey (an existing key)
`RenderTerraform` emits no block and returns nil, and `TerraformLink`
returns the literal key Name. -/
theorem C8_terraform_render_and_link (t : TerraformTarget) (a : Option SSHKey)
    (e changes : SSHKey) (n d : String) (hname : e.Name = some n) :
    (e.PublicKey = some (Except.ok d) →
      SSHKey.RenderTerraform t a e changes = GoResult.ok
        { files := t.files ++ [("aws_key_pair", removeColons n, "public_key", d)],
          resources := t.resources ++ [("aws_key_pair", removeColons n,
            { Name := e.Name,
              PublicKey := TFLiteral.fileRef "aws_key_pair" (removeColons n) "public_key",
              Tags := e.Tags })] }
      ∧ e.TerraformLink
        = GoResult.ok (some (TFLiteral.property "aws_key_pair" (removeColons n) "id")))
    ∧ (e.PublicKey = none →
      SSHKey.RenderTerraform t a e changes = GoResult.ok t
      ∧ e.TerraformLink = GoResult.ok (some (TFLiteral.stringValue n))) := by
  constructor
  · intro hp
    have hno : e.NoSSHKey = false := by simp [SSHKey.NoSSHKey, hp]
    constructor
    · simp [SSHKey.RenderTerraform, SSHKey.IsExistingKey, hp, hname, deref, GoResult.bind,
        TerraformTarget.AddFileResource, TerraformTarget.RenderResource]
    · simp [SSHKey.TerraformLink, hno, SSHKey.IsExistingKey, hp, hname, deref, GoResult.bind]
  · intro hp
    have hno : e.NoSSHKey = false := by simp [SSHKey.NoSSHKey, hname]
    constructor
    · simp [SSHKey.RenderTerraform, SSHKey.IsExistingKey, hp]
    · simp [SSHKey.TerraformLink, hno, SSHKey.IsExistingKey, hp, hname, deref, GoResult.bind]

/-- C8 witness: `C8_terraform_render_and_link` on an empty document and a task
named "k:1" with a readable public key. -/
theorem C8_terraform_render_and_link_w :
    SSHKey.RenderTerraform {} none
        { Name := some "k:1", PublicKey := some (Except.ok "pub") } {}
      = GoResult.ok
        { files := [("aws_key_pair", removeColons "k:1", "public_key", "pub")],
          resources := [("aws_key_pair", removeColons "k:1",
            { Name := some "k:1",
              PublicKey := TFLiteral.fileRef "aws_key_pair" (removeColons "k:1") "public_key",
              Tags := [] })] }
      ∧ SSHKey.TerraformLink { Name := some "k:1", PublicKey := some (Except.ok "pub") }
        = GoResult.ok (some (TFLiteral.property "aws_key_pair" (removeColons "k:1") "id")) :=
  (C8_terraform_render_and_link {} none
      { Name := some "k:1", PublicKey := some (Except.ok "pub") } {} "k:1" "pub" rfl).1 rfl

/-- C10: a task with all of ID, Name, PublicKey and KeyFingerprint nil gets
`nil` from `TerraformLink` rather than failing; but with a non-nil PublicKey
both `TerraformLink` and `RenderTerraform` dereference the Name pointer, and
`TerraformLink` also does so for an existing key (nil PublicKey) that still
has an ID or a fingerprint — so a nil Name panics there, and both functions
are panic-free whenever Name is non-nil. -/
theorem C10_terraform_nil_name_safety (e : SSHKey) :
    (e.ID = none → e.Name = none → e.PublicKey = none → e.KeyFingerprint = none →
      e.TerraformLink = GoResult.ok none)
    ∧ (e.Name = none → e.PublicKey ≠ none →
      e.TerraformLink = GoResult.panic
      ∧ ∀ t a changes, SSHKey.RenderTerraform t a e changes = GoResult.panic)
    ∧ (e.Name = none → e.PublicKey = none → (e.ID ≠ none ∨ e.KeyFingerprint ≠ none) →
      e.TerraformLink = GoResult.panic)
    ∧ ((∃ n, e.Name = some n) →
      e.TerraformLink ≠ GoResult.panic
      ∧ ∀ t a changes, SSHKey.RenderTerraform t a e changes ≠ GoResult.panic) := by
  refine ⟨?_, ?_, ?_, ?_⟩
  · intro h1 h2 h3 h4
    simp [SSHKey.TerraformLink, SSHKey.NoSSHKey, h1, h2, h3, h4]
  · intro hn hp
    rcases hpk : e.PublicKey with _ | r
    · exact absurd hpk hp
    constructor
    · simp [SSHKey.TerraformLink, SSHKey.NoSSHKey, SSHKey.IsExistingKey, hn, hpk,
        deref, GoResult.bind]
    · intro t a changes
      simp [SSHKey.RenderTerraform, SSHKey.IsExistingKey, hpk, hn, deref, GoResult.bind]
  · intro hn hp hor
    have hno : e.NoSSHKey = false := by
      rcases hor with h | h
      · rcases hid : e.ID with _ | v
        · exact absurd hid h
        · simp [SSHKey.NoSSHKey, hid]
      · rcases hkf : e.KeyFingerprint with _ | v
        · exact absurd hkf h
        · simp [SSHKey.NoSSHKey, hkf]
    simp [SSHKey.TerraformLink, hno, SSHKey.IsExistingKey, hp, hn, deref, GoResult.bind]
  · rintro ⟨n, hn⟩
    constructor
    · cases hno : e.NoSSHKey
      · rcases hpk : e.PublicKey with _ | r <;>
          simp [SSHKey.TerraformLink, hno, SSHKey.IsExistingKey, hpk, hn, deref,
            GoResult.bind]
      · simp [SSHKey.TerraformLink, hno]
    · intro t a changes
      rcases hpk : e.PublicKey with _ | r
      · simp [SSHKey.RenderTerraform, SSHKey.IsExistingKey, hpk]
      · cases r with
        | error m =>
          simp [SSHKey.RenderTerraform, SSHKey.IsExistingKey, hpk, hn, deref,
            GoResult.bind, TerraformTarget.AddFileResource]
        | ok c =>
          simp [SSHKey.RenderTerraform, SSHKey.IsExistingKey, hpk, hn, deref,
            GoResult.bind, TerraformTarget.AddFileResource]

/-- C10 witness: `C10_terraform_nil_name_safety` at the all-nil task. -/
theorem C10_terraform_nil_name_safety_w :
    SSHKey.TerraformLink {} = GoResult.ok none :=
  (C10_terraform_nil_name_safety {}).1 rfl rfl rfl rfl

/-- C9: `Build` never fails, calls no backend (the embedding only assembles
task values), and the task set is fully determined by the distribution and
the Cilium-etcd flag: nothing on ContainerOS; on Flatcar no package and no
logrotate.service but the per-log config files (each carrying a dateformat
option) and the timer; on every other distribution the logrotate package,
one config file per kubernetes log (plus etcd-cilium exactly when Cilium
etcd is in use), the logrotate.service, and the hourly logrotate.timer. -/
theorem C9_logrotate_build (b : LogrotateBuilder) :
    ∃ ts, b.Build = Except.ok ts
      ∧ (b.Distribution = Distribution.containerOS → ts = [])
      ∧ (b.Distribution ≠ Distribution.containerOS →
          ((NodeTask.package "logrotate" ∈ ts ↔ b.Distribution ≠ Distribution.flatcar)
          ∧ ((∃ t ∈ ts, isServiceNamed "logrotate.service" t = true)
              ↔ b.Distribution ≠ Distribution.flatcar)
          ∧ logrotateTimerTask ∈ ts
          ∧ (∀ np ∈ kubernetesLogs, addLogRotate b.Distribution np.1 np.2 {} ∈ ts)
          ∧ ((∃ t ∈ ts, isFileAtPath "/etc/logrotate.d/etcd-cilium" t = true)
              ↔ b.useCiliumEtcd = true)
          ∧ (b.Distribution = Distribution.flatcar →
              ∀ np ∈ kubernetesLogs,
                "  dateformat -%Y%m%d-%s" ∈ logRotateLines b.Distribution np.2 {})
          ∧ (b.Distribution ≠ Distribution.flatcar →
              ∀ np ∈ kubernetesLogs,
                "  dateformat -%Y%m%d-%s" ∉ logRotateLines b.Distribution np.2 {}))) := by
  obtain ⟨d, c⟩ := b
  cases d <;> cases c <;> exact ⟨_, rfl, by decide, by decide⟩

/-- C9 witness: `C9_logrotate_build` on ContainerOS — no tasks at all. -/
theorem C9_logrotate_build_w :
    ∃ ts, LogrotateBuilder.Build ⟨Distribution.containerOS, false⟩ = Except.ok ts
      ∧ ts = [] := by
  obtain ⟨ts, h1, h2, _⟩ := C9_logrotate_build ⟨Distribution.containerOS, false⟩
  exact ⟨ts, h1, h2 rfl⟩

end KopsVerify
